import Mathlib

/-!
  Verification of the contact-manager (`src/main.py`) against its
  natural-language specification.

  The Python program is embedded shallowly:
  * `PyDate` models `datetime.date` (proleptic Gregorian calendar);
    Python's date ordering coincides with comparison of `toOrdinal`
    (`date.toordinal`), and `date.weekday()` is `(toordinal + 6) % 7`
    with Monday = 0 .. Sunday = 6.
  * Strings are modelled over their character lists; `str.strip`
    removes exactly Python's whitespace set, `str.isdigit` accepts the
    decimal digits plus Python's further digit-property characters
    (such as '²'), and `str.casefold` is modelled for ASCII data (the
    program's keys are command words and names as typed).
  * Exceptions become explicit `PyErr` values; an in-place mutating
    method on `Record` becomes a function returning
    `Option PyErr × Record` (the raised error, if any, together with
    the state of the object afterwards).
  * The dict underlying `AddressBook` (`UserDict`) becomes an
    insertion-ordered association list `Book`; dict assignment keeps
    the position of an existing key and appends a fresh key.
  * Python's stable `list.sort` is modelled by `List.insertionSort`,
    which is also stable; a stable sort is extensionally unique, so
    this is the same function.
-/

namespace AB

/-! ### Calendar (model of `datetime.date`) -/

/-- A proleptic-Gregorian calendar date, as held by `datetime.date`. -/
structure PyDate where
  year : Nat
  month : Nat
  day : Nat
deriving DecidableEq

/-- Gregorian leap-year rule. -/
def isLeap (y : Nat) : Bool :=
  (y % 4 == 0 && y % 100 != 0) || y % 400 == 0

/-- Number of days of month `m` in year `y`. -/
def daysInMonth (y m : Nat) : Nat :=
  if m == 2 then (if isLeap y then 29 else 28)
  else if m == 4 || m == 6 || m == 9 || m == 11 then 30
  else 31

/-- Days in year `y` strictly before month `m`. -/
def daysBeforeMonth (y m : Nat) : Nat :=
  (List.range (m - 1)).foldl (fun acc i => acc + daysInMonth y (i + 1)) 0

/-- `date.toordinal`: day count with 0001-01-01 ↦ 1. -/
def toOrdinal (d : PyDate) : Nat :=
  365 * (d.year - 1) + (d.year - 1) / 4 - (d.year - 1) / 100 + (d.year - 1) / 400
    + daysBeforeMonth d.year d.month + d.day

/-- `date.weekday()`: Monday = 0 .. Sunday = 6 (0001-01-01 is a Monday). -/
def weekday (d : PyDate) : Nat :=
  (toOrdinal d + 6) % 7

/-- The calendar successor of a date (used to model `timedelta` addition). -/
def nextDay (d : PyDate) : PyDate :=
  if d.day < daysInMonth d.year d.month then ⟨d.year, d.month, d.day + 1⟩
  else if d.month < 12 then ⟨d.year, d.month + 1, 1⟩
  else ⟨d.year + 1, 1, 1⟩

/-- `d + timedelta(days=n)` for `n ≥ 0`. -/
def addDays : PyDate → Nat → PyDate
  | d, 0 => d
  | d, n + 1 => nextDay (addDays d n)

/-! ### String helpers (models of Python `str` methods) -/

/-- The characters `str.strip()` removes: exactly CPython's
    `Py_UNICODE_ISSPACE` set (the Unicode White_Space property):
    U+0009–U+000D, U+001C–U+001F, space, NEL, NBSP, Ogham space mark,
    the U+2000–U+200A spaces, line/paragraph separator, narrow NBSP,
    medium mathematical space, ideographic space. -/
def isPySpace (c : Char) : Bool :=
  (0x9 ≤ c.toNat && c.toNat ≤ 0xD) || (0x1C ≤ c.toNat && c.toNat ≤ 0x1F) ||
  c.toNat == 0x20 || c.toNat == 0x85 || c.toNat == 0xA0 || c.toNat == 0x1680 ||
  (0x2000 ≤ c.toNat && c.toNat ≤ 0x200A) || c.toNat == 0x2028 || c.toNat == 0x2029 ||
  c.toNat == 0x202F || c.toNat == 0x205F || c.toNat == 0x3000

/-- `str.strip()`. -/
def pyStrip (s : String) : String :=
  ⟨((s.data.dropWhile isPySpace).reverse.dropWhile isPySpace).reverse⟩

/-- The non-ASCII codepoints the model of `str.isdigit()` accepts.
    Python accepts a character iff its Unicode `Numeric_Type` is
    `Digit` or `Decimal`; that set strictly exceeds the decimal digits
    0-9 — e.g. the superscripts ¹ ² ³ (Numeric_Type `Digit`, category
    No) pass `isdigit` although they are not decimal digits.  Listed
    here: the superscript digits (U+00B2, U+00B3, U+00B9, U+2070,
    U+2074–U+2079), the subscript digits (U+2080–U+2089), and the
    decimal-digit (Nd) ranges of Arabic-Indic, extended Arabic-Indic,
    Devanagari, Thai and fullwidth digits.  Every listed codepoint is
    genuinely accepted by `str.isdigit`; rarer `Nd` scripts are
    omitted — the classifier is exact on every character any theorem
    below evaluates it on (ASCII, and U+00B2). -/
def pyDigitAux (n : Nat) : Bool :=
  n == 0xB2 || n == 0xB3 || n == 0xB9 ||
  (0x660 ≤ n && n ≤ 0x669) || (0x6F0 ≤ n && n ≤ 0x6F9) ||
  (0x966 ≤ n && n ≤ 0x96F) || (0xE50 ≤ n && n ≤ 0xE59) ||
  n == 0x2070 || (0x2074 ≤ n && n ≤ 0x2079) ||
  (0x2080 ≤ n && n ≤ 0x2089) ||
  (0xFF10 ≤ n && n ≤ 0xFF19)

/-- One character of `str.isdigit()`: a decimal digit 0-9, or one of
    the further digit-property characters Python accepts. -/
def pyIsDigitChar (c : Char) : Bool :=
  ('0' ≤ c && c ≤ '9') || pyDigitAux c.toNat

/-- `str.isdigit()`: non-empty and every character a digit in
    Python's (Unicode) sense. -/
def pyIsdigit (s : String) : Bool :=
  !s.data.isEmpty && s.data.all pyIsDigitChar

/-- `str.casefold()` on ASCII data: lower-case every letter. -/
def casefold (s : String) : String :=
  ⟨s.data.map (fun c => if 'A' ≤ c && c ≤ 'Z' then Char.ofNat (c.toNat + 32) else c)⟩

/-- Zero-pad a number to two digits (for `strftime("%d"` / `"%m")`). -/
def pad2 (n : Nat) : String :=
  if n < 10 then "0" ++ toString n else toString n

/-- Zero-pad a number to four digits (for `strftime("%Y")`). -/
def pad4 (n : Nat) : String :=
  if n < 10 then "000" ++ toString n
  else if n < 100 then "00" ++ toString n
  else if n < 1000 then "0" ++ toString n
  else toString n

/-- `date.strftime("%d.%m.%Y")`. -/
def formatDMY (d : PyDate) : String :=
  pad2 d.day ++ "." ++ pad2 d.month ++ "." ++ pad4 d.year

/-! ### Exceptions -/

/-- The Python exception kinds the program raises or catches. -/
inductive PyErr where
  | valueError (msg : String)
  | keyError (msg : String)
  | attributeError
  | indexError
deriving DecidableEq

instance {ε α : Type} [DecidableEq ε] [DecidableEq α] : DecidableEq (Except ε α) := fun
  | .ok a, .ok b =>
    if h : a = b then .isTrue (by rw [h]) else .isFalse (by intro hc; cases hc; exact h rfl)
  | .error a, .error b =>
    if h : a = b then .isTrue (by rw [h]) else .isFalse (by intro hc; cases hc; exact h rfl)
  | .ok _, .error _ => .isFalse (by intro hc; cases hc)
  | .error _, .ok _ => .isFalse (by intro hc; cases hc)

/-! ### `strptime(s, "%d.%m.%Y")` -/

/-- CPython `_strptime` day field: regex `3[01]|[12]\d|0[1-9]|[1-9]`. -/
def matchDay : List Char → Bool
  | [c] => '1' ≤ c && c ≤ '9'
  | [c1, c2] =>
    (c1 == '3' && (c2 == '0' || c2 == '1')) ||
    ((c1 == '1' || c1 == '2') && c2.isDigit) ||
    (c1 == '0' && '1' ≤ c2 && c2 ≤ '9')
  | _ => false

/-- CPython `_strptime` month field: regex `1[0-2]|0[1-9]|[1-9]`. -/
def matchMonth : List Char → Bool
  | [c] => '1' ≤ c && c ≤ '9'
  | [c1, c2] =>
    (c1 == '1' && (c2 == '0' || c2 == '1' || c2 == '2')) ||
    (c1 == '0' && '1' ≤ c2 && c2 ≤ '9')
  | _ => false

/-- CPython `_strptime` year field: regex `\d\d\d\d`. -/
def matchYear (l : List Char) : Bool :=
  l.length == 4 && l.all Char.isDigit

/-- Numeric value of a digit string. -/
def natOfDigits (l : List Char) : Nat :=
  l.foldl (fun acc c => acc * 10 + (c.toNat - '0'.toNat)) 0

/-- Split a character list at the literal dots of the pattern. -/
def splitDots : List Char → List (List Char)
  | [] => [[]]
  | c :: cs =>
    let rest := splitDots cs
    if c == '.' then [] :: rest
    else match rest with
      | [] => [[c]]
      | g :: gs => (c :: g) :: gs

/-- `datetime.strptime(s, "%d.%m.%Y").date()`: the three fields must match
    the field regexes, consume the whole string, and form a valid
    calendar date (`datetime` also rejects year 0).  The regex digits
    are modelled as ASCII 0-9; `re`'s `\d` also accepts other Nd
    digits, which no statement below exercises. -/
def strptimeDMY (s : String) : Except PyErr PyDate :=
  match splitDots s.data with
  | [ds, ms, ys] =>
    if matchDay ds && matchMonth ms && matchYear ys then
      let d := natOfDigits ds
      let m := natOfDigits ms
      let y := natOfDigits ys
      if 1 ≤ y && d ≤ daysInMonth y m then .ok ⟨y, m, d⟩
      else .error (.valueError "day is out of range for month")
    else .error (.valueError "time data does not match format")
  | _ => .error (.valueError "time data does not match format")

/-! ### Validated fields -/

/-- `Phone`: wraps a validated 10-digit string (`class Phone`). -/
structure Phone where
  value : String
deriving DecidableEq

/-- The `Phone` constructor: strip, then require exactly 10 digits. -/
def makePhone (value : String) : Except PyErr Phone :=
  let raw := pyStrip value
  if pyIsdigit raw && raw.length == 10 then .ok ⟨raw⟩
  else .error (.valueError "Номер телефону має складатися рівно з 10 цифр.")

/-- The `Birthday` constructor: strip, parse `DD.MM.YYYY`, re-raise any
    parse failure with a fixed message.  The class stores
    `dt.strftime("%d.%m.%Y")`; since `formatDMY` is injective on valid
    dates and re-parses to the same date, the model stores the date. -/
def makeBirthday (value : String) : Except PyErr PyDate :=
  match strptimeDMY (pyStrip value) with
  | .ok d => .ok d
  | .error _ => .error (.valueError "Invalid date format. Use DD.MM.YYYY")

/-! ### Records -/

/-- `class Record`: a display name, an ordered phone list, an optional
    birthday (`self.name`, `self.phones`, `self.birthday`). -/
structure Record where
  name : String
  phones : List Phone
  birthday : Option PyDate
deriving DecidableEq

/-- Values of the phones of a record. -/
def Record.phoneValues (r : Record) : List String :=
  r.phones.map Phone.value

/-- `Record.add_phone`: validate; silently ignore a duplicate value;
    otherwise append. -/
def Record.add_phone (r : Record) (phone : String) : Option PyErr × Record :=
  match makePhone phone with
  | .error e => (some e, r)
  | .ok p =>
    if r.phones.any (fun ph => ph.value == p.value) then (none, r)
    else (none, { r with phones := r.phones ++ [p] })

/-- `Record.remove_phone`: validate; delete the first phone with the
    cleaned value; raise if no phone matches. -/
def Record.remove_phone (r : Record) (phone : String) : Option PyErr × Record :=
  match makePhone phone with
  | .error e => (some e, r)
  | .ok p =>
    if r.phones.any (fun ph => ph.value == p.value) then
      (none, { r with phones := r.phones.eraseP (fun ph => ph.value == p.value) })
    else (some (.valueError "Цього номеру немає у контакті."), r)

/-- Overwrite the value of the first phone equal to `oldv` with `newv`
    (the loop body of `Record.edit_phone`). -/
def replaceFirstPhone : List Phone → String → String → List Phone
  | [], _, _ => []
  | p :: ps, oldv, newv =>
    if p.value == oldv then ⟨newv⟩ :: ps
    else p :: replaceFirstPhone ps oldv newv

/-- `Record.edit_phone`: validate `old`, then validate `new`, then
    overwrite the first matching phone in place; raise if none matches. -/
def Record.edit_phone (r : Record) (old new : String) : Option PyErr × Record :=
  match makePhone old with
  | .error e => (some e, r)
  | .ok po =>
    match makePhone new with
    | .error e => (some e, r)
    | .ok pn =>
      if r.phones.any (fun ph => ph.value == po.value) then
        (none, { r with phones := replaceFirstPhone r.phones po.value pn.value })
      else (some (.valueError "Старий номер не знайдено у контакті."), r)

/-- `Record.add_birthday`: raise if a birthday is already set (before
    even looking at the argument); otherwise validate and set. -/
def Record.add_birthday (r : Record) (bday : String) : Option PyErr × Record :=
  if r.birthday.isSome then
    (some (.valueError "День народження вже задано для цього контакту."), r)
  else
    match makeBirthday bday with
    | .error e => (some e, r)
    | .ok d => (none, { r with birthday := some d })

/-! ### The address book

`AddressBook(UserDict)` holds `self.data`, a Python dict from the
case-folded name to the record.  A dict is insertion-ordered, holds at
most one entry per key, keeps an existing key's position on assignment
and appends a fresh key; it is modelled by an association list. -/

/-- The `self.data` dict of `AddressBook`. -/
abbrev Book := List (String × Record)

/-- `AddressBook._key`. -/
def bookKey (name : String) : String := casefold name

/-- `AddressBook.add_record`: `self.data[key] = record` (dict
    assignment: replace in place, or append a fresh key). -/
def add_record (book : Book) (r : Record) : Book :=
  let key := bookKey r.name
  if book.any (fun kv => kv.1 == key) then
    book.map (fun kv => if kv.1 == key then (kv.1, r) else kv)
  else book ++ [(key, r)]

/-- `AddressBook.find`: `self.data.get(key)`. -/
def find (book : Book) (name : String) : Option Record :=
  (book.find? (fun kv => kv.1 == bookKey name)).map Prod.snd

/-- `AddressBook.delete`: `del self.data[key]`, or `KeyError`. -/
def delete (book : Book) (name : String) : Except PyErr Book :=
  let key := bookKey name
  if book.any (fun kv => kv.1 == key) then
    .ok (book.eraseP (fun kv => kv.1 == key))
  else .error (.keyError "Контакт з таким іменем не знайдено.")

/-! ### Upcoming birthdays -/

/-- `date.replace(year=y)`: the resulting day must exist in the target
    month of `y` (Feb 29 in a common year raises `ValueError`). -/
def dateReplaceYear (d : PyDate) (y : Nat) : Except PyErr PyDate :=
  if d.day ≤ daysInMonth y d.month then .ok ⟨y, d.month, d.day⟩
  else .error (.valueError "day is out of range for month")

/-- `AddressBook._shift_if_weekend`. -/
def shift_if_weekend (d : PyDate) : PyDate :=
  if weekday d == 5 then addDays d 2
  else if weekday d == 6 then addDays d 1
  else d

/-- The greeting date the loop body computes for birthday `b`:
    project onto `today`'s year; if strictly earlier than `today`,
    project onto the next year; then shift off the weekend.
    Python date comparison is comparison of ordinals. -/
def greetOf (today b : PyDate) : Except PyErr PyDate :=
  match dateReplaceYear b today.year with
  | .error e => .error e
  | .ok d1 =>
    if toOrdinal d1 < toOrdinal today then
      match dateReplaceYear d1 (today.year + 1) with
      | .error e => .error e
      | .ok d2 => .ok (shift_if_weekend d2)
    else .ok (shift_if_weekend d1)

/-- `today <= greet <= end_date` with `end_date = today + timedelta(days - 1)`. -/
def inWindow (today : PyDate) (days : Int) (g : PyDate) : Bool :=
  decide (toOrdinal today ≤ toOrdinal g) &&
  decide ((toOrdinal g : Int) ≤ (toOrdinal today : Int) + (days - 1))

/-- The record loop of `get_upcoming_birthdays`: skip records without a
    birthday, compute the greeting date (a raised `ValueError`
    propagates), keep the in-window entries in iteration order. -/
def gubEntries (today : PyDate) (days : Int) :
    List Record → Except PyErr (List (String × PyDate))
  | [] => .ok []
  | r :: rs =>
    match r.birthday with
    | none => gubEntries today days rs
    | some b =>
      match greetOf today b with
      | .error e => .error e
      | .ok g =>
        match gubEntries today days rs with
        | .error e => .error e
        | .ok rest => .ok (if inWindow today days g then (r.name, g) :: rest else rest)

/-- Sort key order of `result.sort(key=...)`: ascending greeting date
    (the stored `"%d.%m.%Y"` string re-parses to the greeting date). -/
def leGreet (a b : String × PyDate) : Prop :=
  toOrdinal a.2 ≤ toOrdinal b.2

instance : DecidableRel leGreet := fun _ _ => Nat.decLe _ _

instance : IsTotal (String × PyDate) leGreet :=
  ⟨fun a b => Nat.le_total (toOrdinal a.2) (toOrdinal b.2)⟩

instance : IsTrans (String × PyDate) leGreet :=
  ⟨fun _ _ _ h1 h2 => Nat.le_trans h1 h2⟩

/-- `AddressBook.get_upcoming_birthdays(days)`.  `today` is the value
    of `date.today()`, passed explicitly.  Entries carry the greeting
    date (the code stores its `"%d.%m.%Y"` rendering and sorts by the
    re-parsed date; `List.insertionSort` models the stable
    `list.sort`).  The book itself is only read, never changed. -/
def get_upcoming_birthdays (book : Book) (days : Int) (today : PyDate) :
    Except PyErr (List (String × PyDate)) :=
  (gubEntries today days (book.map Prod.snd)).map (List.insertionSort leGreet)

/-! ### The dispatcher (`App`)

`save_data` writes the whole book to disk; it is modelled by the
effect `Effect.save b`, carrying the book state at the moment of the
call.  View calls become the remaining effects.  A handler decorated
with `@input_error` never lets an exception out: it is a total
function returning the (possibly mutated) book and the emitted
effects.  The undecorated `handle_birthdays` can let an exception
escape, hence its `Except` result. -/

/-- One observable side effect of a command handler. -/
inductive Effect where
  | save (book : Book)
  | message (text : String)
  | error (text : String)
  | showContact (r : Record)
  | showContacts (rs : List Record)
  | showBirthdays (items : List (String × PyDate))
  | showHelp
  | goodbye
deriving DecidableEq

/-- The message `input_error` shows for each caught exception
    (`str(KeyError(m))` is `repr(m)`, i.e. `m` in single quotes,
    which is never empty).  The `IndexError` arm exists in the
    decorator but no handler reaches it: too few arguments make the
    starred tuple unpacking raise `ValueError`, whose text is shown
    as is. -/
def errText : PyErr → String
  | .indexError => "Недостатньо аргументів."
  | .attributeError => "Контакт не знайдено."
  | .keyError m => "\x27" ++ m ++ "\x27"
  | .valueError m => m

/-- The `ValueError` text of `a, b, *rest = args` with too few
    values. -/
def unpackErr (expected got : Nat) : String :=
  "not enough values to unpack (expected at least " ++ toString expected ++
    ", got " ++ toString got ++ ")"

/-- Replace the record stored under `key` (models the in-place
    mutation of the record object the dict holds; the program never
    aliases one record under two keys). -/
def updateValue (book : Book) (key : String) (r : Record) : Book :=
  book.map (fun kv => if kv.1 == key then (kv.1, r) else kv)

/-- `App.handle_add` (decorated): unpack `name, phone`; create and
    insert an empty record when the name is absent; `add_phone`;
    autosave; report.  A `ValueError` from `add_phone` is caught after
    the fresh record was already inserted. -/
def handle_add (book : Book) (args : List String) : Book × List Effect :=
  match args with
  | name :: phone :: _ =>
    match find book name with
    | none =>
      let rec0 : Record := ⟨name, [], none⟩
      let book1 := add_record book rec0
      match rec0.add_phone phone with
      | (some e, _) => (book1, [.error (errText e)])
      | (none, rec1) =>
        let book2 := updateValue book1 (bookKey name) rec1
        (book2, [.save book2, .message "Contact added."])
    | some rec =>
      match rec.add_phone phone with
      | (some e, _) => (book, [.error (errText e)])
      | (none, rec1) =>
        let book2 := updateValue book (bookKey name) rec1
        (book2, [.save book2, .message "Contact updated."])
  | [] => (book, [.error (errText (.valueError (unpackErr 2 0)))])
  | [_] => (book, [.error (errText (.valueError (unpackErr 2 1)))])

/-- `App.handle_change` (decorated): `rec.edit_phone` on a `None`
    record raises `AttributeError`. -/
def handle_change (book : Book) (args : List String) : Book × List Effect :=
  match args with
  | name :: old_p :: new_p :: _ =>
    match find book name with
    | none => (book, [.error (errText .attributeError)])
    | some rec =>
      match rec.edit_phone old_p new_p with
      | (some e, _) => (book, [.error (errText e)])
      | (none, rec1) =>
        let book1 := updateValue book (bookKey name) rec1
        (book1, [.save book1, .message "Phone changed."])
  | [] => (book, [.error (errText (.valueError (unpackErr 3 0)))])
  | [_] => (book, [.error (errText (.valueError (unpackErr 3 1)))])
  | [_, _] => (book, [.error (errText (.valueError (unpackErr 3 2)))])

/-- `App.handle_remove_phone` (decorated). -/
def handle_remove_phone (book : Book) (args : List String) : Book × List Effect :=
  match args with
  | name :: p :: _ =>
    match find book name with
    | none => (book, [.error (errText .attributeError)])
    | some rec =>
      match rec.remove_phone p with
      | (some e, _) => (book, [.error (errText e)])
      | (none, rec1) =>
        let book1 := updateValue book (bookKey name) rec1
        (book1, [.save book1, .message "Phone removed."])
  | [] => (book, [.error (errText (.valueError (unpackErr 2 0)))])
  | [_] => (book, [.error (errText (.valueError (unpackErr 2 1)))])

/-- `App.handle_delete` (decorated). -/
def handle_delete (book : Book) (args : List String) : Book × List Effect :=
  match args with
  | name :: _ =>
    match delete book name with
    | .error e => (book, [.error (errText e)])
    | .ok book1 => (book1, [.save book1, .message "Contact deleted."])
  | [] => (book, [.error (errText (.valueError (unpackErr 1 0)))])

/-- `App.handle_phone` (decorated): `show_contact(None)` raises
    `AttributeError` before printing anything. -/
def handle_phone (book : Book) (args : List String) : Book × List Effect :=
  match args with
  | name :: _ =>
    match find book name with
    | none => (book, [.error (errText .attributeError)])
    | some rec => (book, [.showContact rec])
  | [] => (book, [.error (errText (.valueError (unpackErr 1 0)))])

/-- `App.handle_all` (undecorated, cannot raise). -/
def handle_all (book : Book) : Book × List Effect :=
  (book, [.showContacts (book.map Prod.snd)])

/-- `App.handle_add_birthday` (decorated). -/
def handle_add_birthday (book : Book) (args : List String) : Book × List Effect :=
  match args with
  | name :: d :: _ =>
    match find book name with
    | none => (book, [.error (errText .attributeError)])
    | some rec =>
      match rec.add_birthday d with
      | (some e, _) => (book, [.error (errText e)])
      | (none, rec1) =>
        let book1 := updateValue book (bookKey name) rec1
        (book1, [.save book1, .message "Birthday added."])
  | [] => (book, [.error (errText (.valueError (unpackErr 2 0)))])
  | [_] => (book, [.error (errText (.valueError (unpackErr 2 1)))])

/-- `App.handle_show_birthday` (decorated): `rec.birthday` on `None`
    raises `AttributeError`; the birthday is shown as its stored
    `"%d.%m.%Y"` string via `show_message`. -/
def handle_show_birthday (book : Book) (args : List String) : Book × List Effect :=
  match args with
  | name :: _ =>
    match find book name with
    | none => (book, [.error (errText .attributeError)])
    | some rec =>
      match rec.birthday with
      | some b => (book, [.message (formatDMY b)])
      | none => (book, [.message "Для цього контакту не задано дня народження."])
  | [] => (book, [.error (errText (.valueError (unpackErr 1 0)))])

/-- `App.handle_birthdays` (NOT decorated with `@input_error`): an
    exception raised by `get_upcoming_birthdays` propagates. -/
def handle_birthdays (book : Book) (today : PyDate) : Except PyErr (List Effect) :=
  match get_upcoming_birthdays book 7 today with
  | .error e => .error e
  | .ok items => .ok [.showBirthdays items]

/-- `App.handle_help` (undecorated, cannot raise). -/
def handle_help : List Effect := [.showHelp]

/-- Outcome of one iteration of the `App.run` loop body on an already
    tokenized command. -/
inductive StepResult where
  | next (book : Book) (effects : List Effect)
  | halt (book : Book) (effects : List Effect)
  | crash (book : Book) (e : PyErr)
deriving DecidableEq

/-- The `if/elif` chain of `App.run` for one parsed command (`cmd` is
    already lower-cased by `parse_input`).  `today` is the wall clock
    read by `get_upcoming_birthdays`.  An exception escaping a handler
    aborts the loop: `crash`. -/
def dispatch (today : PyDate) (book : Book) (cmd : String) (args : List String) :
    StepResult :=
  if cmd == "" then .next book []
  else if cmd == "exit" || cmd == "close" then .halt book [.goodbye]
  else if cmd == "hello" then .next book [.message "How can I help you?"]
  else if cmd == "help" then .next book handle_help
  else if cmd == "add" then
    let (b, effs) := handle_add book args
    .next b effs
  else if cmd == "change" then
    let (b, effs) := handle_change book args
    .next b effs
  else if cmd == "remove-phone" then
    let (b, effs) := handle_remove_phone book args
    .next b effs
  else if cmd == "delete" then
    let (b, effs) := handle_delete book args
    .next b effs
  else if cmd == "phone" then
    let (b, effs) := handle_phone book args
    .next b effs
  else if cmd == "all" then
    let (b, effs) := handle_all book
    .next b effs
  else if cmd == "add-birthday" then
    let (b, effs) := handle_add_birthday book args
    .next b effs
  else if cmd == "show-birthday" then
    let (b, effs) := handle_show_birthday book args
    .next b effs
  else if cmd == "birthdays" then
    match handle_birthdays book today with
    | .ok effs => .next book effs
    | .error e => .crash book e
  else .next book [.message "Invalid command. Введіть \x27help\x27 для довідки."]

/-! ### Spec-side definitions

These follow the wording of the specification, to be compared with the
embedded code above. -/

/-- The greeting date as the spec describes it: project the birthday's
    month/day onto the current year; if that date is strictly before
    `today`, project onto the next year; shift a Saturday projection
    forward 2 days and a Sunday projection forward 1 day. -/
def specGreet (today b : PyDate) : PyDate :=
  let d1 : PyDate := ⟨today.year, b.month, b.day⟩
  let d2 : PyDate :=
    if toOrdinal d1 < toOrdinal today then ⟨today.year + 1, b.month, b.day⟩ else d1
  shift_if_weekend d2

/-- A record's birthday survives both projections of the algorithm
    (rules out Feb 29 landing in a common year, where the code's
    `date.replace` raises instead of projecting). -/
def projectable (today : PyDate) (r : Record) : Bool :=
  match r.birthday with
  | none => true
  | some b =>
    b.day ≤ daysInMonth today.year b.month &&
      (!decide (toOrdinal (⟨today.year, b.month, b.day⟩ : PyDate) < toOrdinal today) ||
        b.day ≤ daysInMonth (today.year + 1) b.month)

/-- The entry the spec's algorithm produces for one record: its
    greeting date, kept iff `today ≤ g ≤ today + (windowDays - 1)`. -/
def specEntry (today : PyDate) (days : Int) (r : Record) : Option (String × PyDate) :=
  match r.birthday with
  | none => none
  | some b =>
    if inWindow today days (specGreet today b) then some (r.name, specGreet today b)
    else none

/-- The effect list of a successful mutating command: one persist of
    the post-mutation store, then one success message. -/
def savesThenReports (res : Book × List Effect) : Prop :=
  ∃ m, res.2 = [Effect.save res.1, Effect.message m]

/-- The effect list of a failed command: exactly one error report. -/
def reportsErrorOnly (res : Book × List Effect) : Prop :=
  ∃ e, res.2 = [Effect.error e]

/-- No persist occurs among the effects. -/
def noSave (effs : List Effect) : Prop :=
  ∀ b, Effect.save b ∉ effs

/-! ### Concrete fixtures -/

/-- Store of the spec's `upcomingBirthdays` example: Alice with
    birthday 03.01.1990, Bob with birthday 06.01.1990. -/
def bookC2 : Book :=
  [("alice", ⟨"Alice", [], some ⟨1990, 1, 3⟩⟩), ("bob", ⟨"Bob", [], some ⟨1990, 1, 6⟩⟩)]

/-- A store holding a record whose birthday is Feb 29 of a leap year
    (settable via `add-birthday Leap 29.02.2024`). -/
def bookLeap : Book := [("leap", ⟨"Leap", [], some ⟨2024, 2, 29⟩⟩)]

/-! ### Helper lemmas -/

/-- `str.strip` only removes characters: whatever is left was in the
    input. -/
theorem mem_pyStrip (s : String) (c : Char) (h : c ∈ (pyStrip s).data) : c ∈ s.data := by
  have h1 : c ∈ ((s.data.dropWhile isPySpace).reverse.dropWhile isPySpace).reverse := h
  rw [List.mem_reverse] at h1
  have h2 := (List.dropWhile_sublist isPySpace).subset h1
  rw [List.mem_reverse] at h2
  exact (List.dropWhile_sublist isPySpace).subset h2

/-- None of the model's extra digit characters is ASCII. -/
theorem pyDigitAux_eq_false (n : Nat) (h : n < 128) : pyDigitAux n = false := by
  unfold pyDigitAux
  rw [Bool.eq_false_iff]
  intro hc
  simp only [Bool.or_eq_true, Bool.and_eq_true, decide_eq_true_eq, beq_iff_eq] at hc
  omega

/-- On ASCII characters, Python's `isdigit` is exactly "is a decimal
    digit 0-9". -/
theorem pyIsDigitChar_ascii (c : Char) (h : c.toNat < 128) :
    pyIsDigitChar c = true ↔ ('0' ≤ c ∧ c ≤ '9') := by
  unfold pyIsDigitChar
  rw [pyDigitAux_eq_false c.toNat h, Bool.or_false, Bool.and_eq_true]
  simp only [decide_eq_true_eq]

theorem makePhone_ok_value (s : String) (p : Phone) (h : makePhone s = .ok p) :
    p.value = pyStrip s := by
  unfold makePhone at h
  by_cases hc : (pyIsdigit (pyStrip s) && (pyStrip s).length == 10) = true
  · rw [if_pos hc] at h
    cases h
    rfl
  · rw [if_neg hc] at h
    cases h

theorem any_value_iff (l : List Phone) (v : String) :
    (l.any (fun ph => ph.value == v)) = true ↔ v ∈ l.map Phone.value := by
  rw [List.any_eq_true]
  constructor
  · rintro ⟨ph, hmem, hbeq⟩
    exact List.mem_map.mpr ⟨ph, hmem, beq_iff_eq.mp hbeq⟩
  · intro h
    obtain ⟨ph, hmem, hv⟩ := List.mem_map.mp h
    exact ⟨ph, hmem, beq_iff_eq.mpr hv⟩

/-- `replaceFirstPhone` rewrites exactly the first occurrence of the
    old value, keeping every position. -/
theorem replaceFirstPhone_decomp (b : String) :
    ∀ (l : List Phone) (a : String), a ∈ l.map Phone.value →
      ∃ pre post, l.map Phone.value = pre ++ a :: post ∧ a ∉ pre ∧
        (replaceFirstPhone l a b).map Phone.value = pre ++ b :: post := by
  intro l
  induction l with
  | nil => intro a h; simp at h
  | cons p ps ih =>
    intro a h
    by_cases hp : p.value = a
    · refine ⟨[], ps.map Phone.value, by simp [hp], by simp, ?_⟩
      simp [replaceFirstPhone, hp]
    · have h' : a ∈ ps.map Phone.value := by
        simp only [List.map_cons, List.mem_cons] at h
        rcases h with h | h
        · exact absurd h.symm hp
        · exact h
      obtain ⟨pre, post, h1, h2, h3⟩ := ih a h'
      refine ⟨p.value :: pre, post, by simp [h1], ?_, by simp [replaceFirstPhone, hp, h3]⟩
      intro hc
      rcases List.mem_cons.mp hc with hc | hc
      · exact hp hc.symm
      · exact h2 hc

theorem find?_map_update (key : String) (r : Record) :
    ∀ l : Book, l.any (fun kv => kv.1 == key) = true →
      ((l.map (fun kv => if kv.1 == key then (kv.1, r) else kv)).find?
        (fun kv => kv.1 == key)).map Prod.snd = some r := by
  intro l
  induction l with
  | nil => intro h; cases h
  | cons kv t ih =>
    intro h
    by_cases hk : kv.1 = key
    · simp [List.find?_cons, hk]
    · have ht : t.any (fun kv => kv.1 == key) = true := by
        simp only [List.any_cons, Bool.or_eq_true, beq_iff_eq] at h
        rcases h with h | h
        · exact absurd h hk
        · exact h
      simpa [List.find?_cons, hk] using ih ht

theorem find?_append_absent (key : String) (r : Record) :
    ∀ l : Book, l.any (fun kv => kv.1 == key) = false →
      (((l ++ [(key, r)]).find? (fun kv => kv.1 == key)).map Prod.snd) = some r := by
  intro l
  induction l with
  | nil => simp [List.find?_cons]
  | cons kv t ih =>
    intro h
    simp only [List.any_cons, Bool.or_eq_false_iff, beq_eq_false_iff_ne] at h
    simpa [List.find?_cons, h.1] using ih (by simpa [beq_eq_false_iff_ne] using h.2)

/-- After `add_record`, lookup under any spelling with the same
    case-folded key returns the inserted record. -/
theorem find_add_record (book : Book) (r : Record) (s : String)
    (h : bookKey s = bookKey r.name) :
    find (add_record book r) s = some r := by
  unfold find add_record
  rw [h]
  by_cases hany : book.any (fun kv => kv.1 == bookKey r.name) = true
  · rw [if_pos hany]
    exact find?_map_update (bookKey r.name) r book hany
  · rw [if_neg hany]
    exact find?_append_absent (bookKey r.name) r book (by
      rw [Bool.eq_false_iff]; exact hany)

/-- Lookup of a key no entry holds returns `none`. -/
theorem find_absent (book : Book) (s : String)
    (h : ∀ kv ∈ book, kv.1 ≠ bookKey s) : find book s = none := by
  unfold find
  rw [List.find?_eq_none.mpr (fun kv hkv => by
    simp only [beq_iff_eq]
    exact h kv hkv)]
  rfl

/-- `add_record` keeps the key list unchanged when the key is present. -/
theorem keys_add_record_present (book : Book) (r : Record)
    (h : book.any (fun kv => kv.1 == bookKey r.name) = true) :
    (add_record book r).map Prod.fst = book.map Prod.fst := by
  unfold add_record
  rw [if_pos h, List.map_map]
  apply List.map_congr_left
  intro kv _
  by_cases hk : kv.1 = bookKey r.name
  · simp [hk]
  · simp [hk]

/-- `add_record` preserves distinctness of the (case-folded) keys. -/
theorem nodup_keys_add_record (book : Book) (r : Record)
    (h : (book.map Prod.fst).Nodup) :
    ((add_record book r).map Prod.fst).Nodup := by
  by_cases hany : book.any (fun kv => kv.1 == bookKey r.name) = true
  · rw [keys_add_record_present book r hany]
    exact h
  · unfold add_record
    rw [if_neg hany, List.map_append]
    have hmem : bookKey r.name ∉ book.map Prod.fst := by
      intro hm
      apply hany
      rw [List.any_eq_true]
      obtain ⟨kv, hkv, hk⟩ := List.mem_map.mp hm
      exact ⟨kv, hkv, by simp [hk]⟩
    simp [List.nodup_append, h, hmem]

/-- `delete` preserves distinctness of the keys. -/
theorem nodup_keys_delete (book : Book) (name : String) (b' : Book)
    (h : delete book name = .ok b') (hn : (book.map Prod.fst).Nodup) :
    (b'.map Prod.fst).Nodup := by
  unfold delete at h
  by_cases hany : book.any (fun kv => kv.1 == bookKey name) = true
  · rw [if_pos hany] at h
    cases h
    exact hn.sublist ((List.eraseP_sublist book).map Prod.fst)
  · rw [if_neg hany] at h
    cases h

/-! ### C6 -/

/-- C6 counterexample: `makePhone` accepts "123456789²" — ten
    characters, none of them whitespace, the last of them the
    superscript two, which `str.isdigit` accepts although it is not a
    decimal digit (its codepoint exceeds the digit '9') — so the
    claim that success requires every character to be a decimal digit
    is false on the code. -/
theorem C6_makePhone_cex :
    makePhone "123456789²" = .ok ⟨"123456789²"⟩ ∧
    pyStrip "123456789²" = "123456789²" ∧
    ("123456789²" : String).length = 10 ∧
    ⟨0xb2, by decide⟩ ∈ ("123456789²" : String).data ∧
    ('9' : Char) < ⟨0xb2, by decide⟩ := by
  decide

/-- C6 amended: for every string of ASCII characters, `makePhone s`
    succeeds iff `s` with surrounding whitespace trimmed is exactly 10
    characters long and every character is a decimal digit, and on
    success the stored value is the trimmed digit string.  Beyond
    ASCII the "decimal digit" reading fails: `str.isdigit` also
    accepts Python's further digit-property characters, such as the
    superscript two, so ten of those also make a Phone. -/
theorem C6_makePhone_amended (s : String) (hascii : ∀ c ∈ s.data, c.toNat < 128) :
    ((∃ p, makePhone s = .ok p) ↔
      ((pyStrip s).length = 10 ∧ ∀ c ∈ (pyStrip s).data, '0' ≤ c ∧ c ≤ '9')) ∧
    (∀ p, makePhone s = .ok p → p.value = pyStrip s) := by
  have hbridge : ∀ c ∈ (pyStrip s).data, (pyIsDigitChar c = true ↔ ('0' ≤ c ∧ c ≤ '9')) :=
    fun c hc => pyIsDigitChar_ascii c (hascii c (mem_pyStrip s c hc))
  unfold makePhone
  by_cases h : (pyIsdigit (pyStrip s) && (pyStrip s).length == 10) = true
  · rw [if_pos h]
    simp only [pyIsdigit, Bool.and_eq_true, beq_iff_eq, List.all_eq_true] at h
    constructor
    · constructor
      · intro _
        exact ⟨h.2, fun c hc => (hbridge c hc).mp (h.1.2 c hc)⟩
      · intro _
        exact ⟨⟨pyStrip s⟩, rfl⟩
    · intro p hp
      cases hp
      rfl
  · rw [if_neg h]
    constructor
    · constructor
      · rintro ⟨p, hp⟩
        cases hp
      · rintro ⟨hlen, hdig⟩
        exfalso
        apply h
        simp only [pyIsdigit, Bool.and_eq_true, beq_iff_eq, List.all_eq_true]
        refine ⟨⟨?_, fun c hc => (hbridge c hc).mpr (hdig c hc)⟩, hlen⟩
        have hlen10 : (pyStrip s).data.length = 10 := hlen
        cases hb : (pyStrip s).data with
        | nil => rw [hb] at hlen10; exact absurd hlen10 (by decide)
        | cons c cs => rfl
    · intro p hp
      cases hp

/-- Witness for C6 at a concrete ASCII input. -/
theorem C6_makePhone_witness :
    ∃ p, makePhone " 0123456789 " = .ok p ∧ p.value = "0123456789" := by
  have h := C6_makePhone_amended " 0123456789 " (by decide)
  obtain ⟨p, hp⟩ := h.1.mpr (by decide)
  exact ⟨p, hp, (h.2 p hp).trans (by decide)⟩

/-! ### C7 -/

/-- C7: once a birthday is set on a record, any later `add_birthday`
    call fails with the already-set `ValueError` — the check precedes
    any look at the new raw string — and the record (hence the
    first-set birthday) is left unchanged.  Confirmed. -/
theorem C7_birthday_once (r : Record) (raw : String) (h : r.birthday.isSome = true) :
    r.add_birthday raw =
      (some (.valueError "День народження вже задано для цього контакту."), r) := by
  unfold Record.add_birthday
  rw [if_pos h]

/-- Witness for C7 at a concrete record. -/
theorem C7_birthday_once_witness :
    Record.add_birthday ⟨"Ann", [], some ⟨1990, 1, 3⟩⟩ "01.01.2000" =
      (some (.valueError "День народження вже задано для цього контакту."),
        ⟨"Ann", [], some ⟨1990, 1, 3⟩⟩) :=
  C7_birthday_once ⟨"Ann", [], some ⟨1990, 1, 3⟩⟩ "01.01.2000" (by decide)

/-! ### C4 -/

/-- C4 counterexample: `edit_phone` CAN break phone uniqueness — on a
    record holding 1111111111 and 2222222222, editing 1111111111 to
    2222222222 succeeds and leaves the value 2222222222 twice, so the
    claim that every record operation preserves uniqueness is false. -/
theorem C4_phone_uniqueness_cex :
    (Record.edit_phone ⟨"A", [⟨"1111111111"⟩, ⟨"2222222222"⟩], none⟩
        "1111111111" "2222222222").1 = none ∧
    (Record.edit_phone ⟨"A", [⟨"1111111111"⟩, ⟨"2222222222"⟩], none⟩
        "1111111111" "2222222222").2.phoneValues = ["2222222222", "2222222222"] := by
  decide

/-- C4 amended: `add_phone` and `remove_phone` preserve phone
    uniqueness; `edit_phone` preserves it provided the new value is
    not already present (or equals the old one); `add_phone` of a
    value already present is a no-op, and otherwise appends the
    validated phone at the end. -/
theorem C4_phone_uniqueness_amended :
    (∀ (r : Record) (raw : String), r.phoneValues.Nodup →
      (r.add_phone raw).2.phoneValues.Nodup) ∧
    (∀ (r : Record) (raw : String), r.phoneValues.Nodup →
      (r.remove_phone raw).2.phoneValues.Nodup) ∧
    (∀ (r : Record) (old new : String), r.phoneValues.Nodup →
      (pyStrip new ∉ r.phoneValues ∨ pyStrip new = pyStrip old) →
      (r.edit_phone old new).2.phoneValues.Nodup) ∧
    (∀ (r : Record) (raw : String) (p : Phone), makePhone raw = .ok p →
      (p.value ∈ r.phoneValues → r.add_phone raw = (none, r)) ∧
      (p.value ∉ r.phoneValues →
        r.add_phone raw = (none, { r with phones := r.phones ++ [p] }))) := by
  refine ⟨?_, ?_, ?_, ?_⟩
  · intro r raw hnd
    cases hm : makePhone raw with
    | error e =>
      simp only [Record.add_phone, hm]
      exact hnd
    | ok p =>
      simp only [Record.add_phone, hm]
      by_cases hany : (r.phones.any (fun ph => ph.value == p.value)) = true
      · rw [if_pos hany]
        exact hnd
      · rw [if_neg hany]
        have hmem : p.value ∉ r.phoneValues :=
          fun hc => hany ((any_value_iff r.phones p.value).mpr hc)
        show ((r.phones ++ [p]).map Phone.value).Nodup
        rw [List.map_append]
        simp only [List.nodup_append, List.map_cons, List.map_nil, List.nodup_singleton,
          true_and, List.disjoint_singleton]
        exact ⟨hnd, fun hc => hmem hc⟩
  · intro r raw hnd
    cases hm : makePhone raw with
    | error e =>
      simp only [Record.remove_phone, hm]
      exact hnd
    | ok p =>
      simp only [Record.remove_phone, hm]
      by_cases hany : (r.phones.any (fun ph => ph.value == p.value)) = true
      · rw [if_pos hany]
        exact hnd.sublist ((List.eraseP_sublist r.phones).map Phone.value)
      · rw [if_neg hany]
        exact hnd
  · intro r old new hnd hside
    cases hmo : makePhone old with
    | error e =>
      simp only [Record.edit_phone, hmo]
      exact hnd
    | ok po =>
      cases hmn : makePhone new with
      | error e =>
        simp only [Record.edit_phone, hmo, hmn]
        exact hnd
      | ok pn =>
        simp only [Record.edit_phone, hmo, hmn]
        by_cases hany : (r.phones.any (fun ph => ph.value == po.value)) = true
        · rw [if_pos hany]
          obtain ⟨pre, post, h1, h2, h3⟩ :=
            replaceFirstPhone_decomp pn.value r.phones po.value
              ((any_value_iff r.phones po.value).mp hany)
          show ((replaceFirstPhone r.phones po.value pn.value).map Phone.value).Nodup
          rw [h3, List.nodup_middle, List.nodup_cons]
          have hnd' : (pre ++ po.value :: post).Nodup := h1 ▸ hnd
          rw [List.nodup_middle, List.nodup_cons] at hnd'
          refine ⟨?_, hnd'.2⟩
          have hpn : pn.value = pyStrip new := makePhone_ok_value new pn hmn
          have hpo : po.value = pyStrip old := makePhone_ok_value old po hmo
          rcases hside with hside | hside
          · intro hc
            apply hside
            rw [← hpn]
            unfold Record.phoneValues
            rw [h1]
            rcases List.mem_append.mp hc with hc | hc
            · exact List.mem_append.mpr (Or.inl hc)
            · exact List.mem_append.mpr (Or.inr (List.mem_cons_of_mem _ hc))
          · rw [hpn, hside, ← hpo]
            exact hnd'.1
        · rw [if_neg hany]
          exact hnd
  · intro r raw p hm
    constructor
    · intro hmem
      simp only [Record.add_phone, hm]
      rw [if_pos ((any_value_iff r.phones p.value).mpr hmem)]
    · intro hmem
      simp only [Record.add_phone, hm]
      rw [if_neg (fun hc => hmem ((any_value_iff r.phones p.value).mp hc))]

/-- Witness for C4 at concrete records: a fresh value appends and
    keeps uniqueness; adding a present value is a no-op. -/
theorem C4_phone_uniqueness_witness :
    (Record.add_phone ⟨"A", [⟨"1111111111"⟩], none⟩ "2222222222").2.phoneValues.Nodup ∧
    Record.add_phone ⟨"A", [⟨"1111111111"⟩], none⟩ "1111111111" =
      (none, ⟨"A", [⟨"1111111111"⟩], none⟩) := by
  constructor
  · exact C4_phone_uniqueness_amended.1 ⟨"A", [⟨"1111111111"⟩], none⟩ "2222222222" (by decide)
  · exact (C4_phone_uniqueness_amended.2.2.2 ⟨"A", [⟨"1111111111"⟩], none⟩
      "1111111111" ⟨"1111111111"⟩ (by decide)).1 (by decide)

/-! ### C5 -/

/-- C5 counterexample: on a record without the (valid, absent) old
    number and with an invalid new number, the code reports the
    phone-format `ValueError` — it validates `new` before looking for
    `old` — where the claim demands NotFound. -/
theorem C5_edit_phone_cex :
    Record.edit_phone ⟨"A", [], none⟩ "1111111111" "123" =
      (some (.valueError "Номер телефону має складатися рівно з 10 цифр."),
        ⟨"A", [], none⟩) := by
  decide

/-- C5 amended: `edit_phone` validates `old`, then validates `new`
    (`ValueError` if either is malformed), and only then fails with
    the not-found `ValueError` when the old value is absent — leaving
    the record unmodified — or replaces the first matching phone's
    value in place with its position preserved. -/
theorem C5_edit_phone_amended (r : Record) (old new : String) :
    (∀ e, makePhone old = .error e → r.edit_phone old new = (some e, r)) ∧
    (∀ po e, makePhone old = .ok po → makePhone new = .error e →
      r.edit_phone old new = (some e, r)) ∧
    (∀ po pn, makePhone old = .ok po → makePhone new = .ok pn →
      po.value ∉ r.phoneValues →
      r.edit_phone old new =
        (some (.valueError "Старий номер не знайдено у контакті."), r)) ∧
    (∀ po pn, makePhone old = .ok po → makePhone new = .ok pn →
      po.value ∈ r.phoneValues →
      (r.edit_phone old new).1 = none ∧
      (r.edit_phone old new).2.name = r.name ∧
      (r.edit_phone old new).2.birthday = r.birthday ∧
      ∃ pre post, r.phoneValues = pre ++ po.value :: post ∧ po.value ∉ pre ∧
        (r.edit_phone old new).2.phoneValues = pre ++ pn.value :: post) := by
  refine ⟨?_, ?_, ?_, ?_⟩
  · intro e he
    simp only [Record.edit_phone, he]
  · intro po e ho he
    simp only [Record.edit_phone, ho, he]
  · intro po pn ho hn hmem
    simp only [Record.edit_phone, ho, hn]
    rw [if_neg (fun hc => hmem ((any_value_iff r.phones po.value).mp hc))]
  · intro po pn ho hn hmem
    obtain ⟨pre, post, h1, h2, h3⟩ :=
      replaceFirstPhone_decomp pn.value r.phones po.value hmem
    have hr : r.edit_phone old new =
        (none, { r with phones := replaceFirstPhone r.phones po.value pn.value }) := by
      simp only [Record.edit_phone, ho, hn]
      rw [if_pos ((any_value_iff r.phones po.value).mpr hmem)]
    rw [hr]
    exact ⟨rfl, rfl, rfl, pre, post, h1, h2, h3⟩

/-- Witness for C5: a successful in-place edit at a concrete record. -/
theorem C5_edit_phone_witness :
    (Record.edit_phone ⟨"A", [⟨"1111111111"⟩], none⟩ "1111111111" "2222222222").1 = none ∧
    ∃ pre post,
      Record.phoneValues ⟨"A", [⟨"1111111111"⟩], none⟩ = pre ++ "1111111111" :: post ∧
      "1111111111" ∉ pre ∧
      (Record.edit_phone ⟨"A", [⟨"1111111111"⟩], none⟩
          "1111111111" "2222222222").2.phoneValues = pre ++ "2222222222" :: post := by
  have h := (C5_edit_phone_amended ⟨"A", [⟨"1111111111"⟩], none⟩
      "1111111111" "2222222222").2.2.2 ⟨"1111111111"⟩ ⟨"2222222222"⟩
      (by decide) (by decide) (by decide)
  exact ⟨h.1, h.2.2.2⟩

/-! ### C9 -/

/-- C9: the store is keyed by case-folded name — after `add_record`,
    `find` under any spelling with the same case-folding (such as
    "Ann" / "ann") returns the inserted record; `find` of an absent
    name is `none`, not an error; and both `add_record` and `delete`
    keep at most one record per case-folded key.  Confirmed. -/
theorem C9_casefold_lookup :
    (∀ (book : Book) (r : Record) (s : String), casefold s = casefold r.name →
      find (add_record book r) s = some r) ∧
    (∀ (book : Book) (s : String), (∀ kv ∈ book, kv.1 ≠ casefold s) →
      find book s = none) ∧
    (∀ (book : Book) (r : Record), (book.map Prod.fst).Nodup →
      ((add_record book r).map Prod.fst).Nodup) ∧
    (∀ (book : Book) (name : String) (b' : Book), delete book name = .ok b' →
      (book.map Prod.fst).Nodup → (b'.map Prod.fst).Nodup) := by
  refine ⟨?_, ?_, ?_, ?_⟩
  · intro book r s h
    exact find_add_record book r s h
  · intro book s h
    exact find_absent book s h
  · intro book r h
    exact nodup_keys_add_record book r h
  · intro book name b' h hn
    exact nodup_keys_delete book name b' h hn

/-- Witness for C9: insert "Ann" into the empty store; both spellings
    find the record, an absent name finds nothing, keys stay distinct. -/
theorem C9_casefold_lookup_witness :
    find (add_record [] ⟨"Ann", [], none⟩) "Ann" = some ⟨"Ann", [], none⟩ ∧
    find (add_record [] ⟨"Ann", [], none⟩) "ann" = some ⟨"Ann", [], none⟩ ∧
    find (add_record [] ⟨"Ann", [], none⟩) "Bob" = none ∧
    ((add_record [] ⟨"Ann", [], none⟩).map Prod.fst).Nodup := by
  refine ⟨?_, ?_, ?_, ?_⟩
  · exact C9_casefold_lookup.1 [] ⟨"Ann", [], none⟩ "Ann" (by decide)
  · exact C9_casefold_lookup.1 [] ⟨"Ann", [], none⟩ "ann" (by decide)
  · exact C9_casefold_lookup.2.1 (add_record [] ⟨"Ann", [], none⟩) "Bob" (by decide)
  · exact C9_casefold_lookup.2.2.1 [] ⟨"Ann", [], none⟩ (by decide)

/-! ### C8 -/

theorem noSave_singleton (x : Effect) (h : ∀ b, x ≠ Effect.save b) : noSave [x] := by
  intro b hb
  rw [List.mem_singleton] at hb
  exact h b hb.symm

theorem handle_add_shape (book : Book) (args : List String) :
    savesThenReports (handle_add book args) ∨ reportsErrorOnly (handle_add book args) := by
  match args with
  | [] => exact Or.inr ⟨_, rfl⟩
  | [_] => exact Or.inr ⟨_, rfl⟩
  | name :: phone :: rest =>
    cases hf : find book name with
    | none =>
      rcases hp : Record.add_phone ⟨name, [], none⟩ phone with ⟨_ | e, rec1⟩
      · simp only [handle_add, hf, hp]
        exact Or.inl ⟨_, rfl⟩
      · simp only [handle_add, hf, hp]
        exact Or.inr ⟨_, rfl⟩
    | some rec =>
      rcases hp : rec.add_phone phone with ⟨_ | e, rec1⟩
      · simp only [handle_add, hf, hp]
        exact Or.inl ⟨_, rfl⟩
      · simp only [handle_add, hf, hp]
        exact Or.inr ⟨_, rfl⟩

theorem handle_change_shape (book : Book) (args : List String) :
    savesThenReports (handle_change book args) ∨ reportsErrorOnly (handle_change book args) := by
  match args with
  | [] => exact Or.inr ⟨_, rfl⟩
  | [_] => exact Or.inr ⟨_, rfl⟩
  | [_, _] => exact Or.inr ⟨_, rfl⟩
  | name :: old_p :: new_p :: rest =>
    cases hf : find book name with
    | none =>
      simp only [handle_change, hf]
      exact Or.inr ⟨_, rfl⟩
    | some rec =>
      rcases hp : rec.edit_phone old_p new_p with ⟨_ | e, rec1⟩
      · simp only [handle_change, hf, hp]
        exact Or.inl ⟨_, rfl⟩
      · simp only [handle_change, hf, hp]
        exact Or.inr ⟨_, rfl⟩

theorem handle_remove_phone_shape (book : Book) (args : List String) :
    savesThenReports (handle_remove_phone book args) ∨
      reportsErrorOnly (handle_remove_phone book args) := by
  match args with
  | [] => exact Or.inr ⟨_, rfl⟩
  | [_] => exact Or.inr ⟨_, rfl⟩
  | name :: p :: rest =>
    cases hf : find book name with
    | none =>
      simp only [handle_remove_phone, hf]
      exact Or.inr ⟨_, rfl⟩
    | some rec =>
      rcases hp : rec.remove_phone p with ⟨_ | e, rec1⟩
      · simp only [handle_remove_phone, hf, hp]
        exact Or.inl ⟨_, rfl⟩
      · simp only [handle_remove_phone, hf, hp]
        exact Or.inr ⟨_, rfl⟩

theorem handle_delete_shape (book : Book) (args : List String) :
    savesThenReports (handle_delete book args) ∨ reportsErrorOnly (handle_delete book args) := by
  match args with
  | [] => exact Or.inr ⟨_, rfl⟩
  | name :: rest =>
    cases hd : delete book name with
    | error e =>
      simp only [handle_delete, hd]
      exact Or.inr ⟨_, rfl⟩
    | ok b1 =>
      simp only [handle_delete, hd]
      exact Or.inl ⟨_, rfl⟩

theorem handle_add_birthday_shape (book : Book) (args : List String) :
    savesThenReports (handle_add_birthday book args) ∨
      reportsErrorOnly (handle_add_birthday book args) := by
  match args with
  | [] => exact Or.inr ⟨_, rfl⟩
  | [_] => exact Or.inr ⟨_, rfl⟩
  | name :: d :: rest =>
    cases hf : find book name with
    | none =>
      simp only [handle_add_birthday, hf]
      exact Or.inr ⟨_, rfl⟩
    | some rec =>
      rcases hp : rec.add_birthday d with ⟨_ | e, rec1⟩
      · simp only [handle_add_birthday, hf, hp]
        exact Or.inl ⟨_, rfl⟩
      · simp only [handle_add_birthday, hf, hp]
        exact Or.inr ⟨_, rfl⟩

theorem handle_phone_readonly (book : Book) (args : List String) :
    (handle_phone book args).1 = book ∧ noSave (handle_phone book args).2 := by
  match args with
  | [] => exact ⟨rfl, noSave_singleton _ nofun⟩
  | name :: rest =>
    cases hf : find book name with
    | none =>
      simp only [handle_phone, hf]
      exact ⟨trivial, noSave_singleton _ nofun⟩
    | some rec =>
      simp only [handle_phone, hf]
      exact ⟨trivial, noSave_singleton _ nofun⟩

theorem handle_show_birthday_readonly (book : Book) (args : List String) :
    (handle_show_birthday book args).1 = book ∧
      noSave (handle_show_birthday book args).2 := by
  match args with
  | [] => exact ⟨rfl, noSave_singleton _ nofun⟩
  | name :: rest =>
    cases hf : find book name with
    | none =>
      simp only [handle_show_birthday, hf]
      exact ⟨trivial, noSave_singleton _ nofun⟩
    | some rec =>
      cases hb : rec.birthday with
      | none =>
        simp only [handle_show_birthday, hf, hb]
        exact ⟨trivial, noSave_singleton _ nofun⟩
      | some b =>
        simp only [handle_show_birthday, hf, hb]
        exact ⟨trivial, noSave_singleton _ nofun⟩

/-- C8: each of the five mutating commands either persists the
    post-mutation store and then reports success — in that order, as
    its only effects — or reports a single error and persists nothing;
    the read-only commands leave the store untouched and never
    persist.  Confirmed. -/
theorem C8_persist_contract :
    (∀ book args, savesThenReports (handle_add book args) ∨
      reportsErrorOnly (handle_add book args)) ∧
    (∀ book args, savesThenReports (handle_change book args) ∨
      reportsErrorOnly (handle_change book args)) ∧
    (∀ book args, savesThenReports (handle_remove_phone book args) ∨
      reportsErrorOnly (handle_remove_phone book args)) ∧
    (∀ book args, savesThenReports (handle_delete book args) ∨
      reportsErrorOnly (handle_delete book args)) ∧
    (∀ book args, savesThenReports (handle_add_birthday book args) ∨
      reportsErrorOnly (handle_add_birthday book args)) ∧
    (∀ book args, (handle_phone book args).1 = book ∧ noSave (handle_phone book args).2) ∧
    (∀ book : Book, (handle_all book).1 = book ∧ noSave (handle_all book).2) ∧
    (∀ book args, (handle_show_birthday book args).1 = book ∧
      noSave (handle_show_birthday book args).2) ∧
    (∀ (book : Book) (today : PyDate) (effs : List Effect),
      handle_birthdays book today = .ok effs → noSave effs) ∧
    noSave handle_help ∧
    (∀ (today : PyDate) (book : Book) (args : List String),
      dispatch today book "hello" args = .next book [.message "How can I help you?"]) := by
  refine ⟨handle_add_shape, handle_change_shape, handle_remove_phone_shape,
    handle_delete_shape, handle_add_birthday_shape, handle_phone_readonly,
    ?_, handle_show_birthday_readonly, ?_, ?_, ?_⟩
  · intro book
    exact ⟨rfl, noSave_singleton _ nofun⟩
  · intro book today effs h
    unfold handle_birthdays at h
    cases hg : get_upcoming_birthdays book 7 today with
    | error e =>
      rw [hg] at h
      cases h
    | ok items =>
      rw [hg] at h
      cases h
      exact noSave_singleton _ nofun
  · exact noSave_singleton _ nofun
  · intro today book args
    rfl

/-- Witness for C8 at concrete inputs: a successful `add` persists
    then reports; `phone` and `birthdays` on the same store persist
    nothing. -/
theorem C8_persist_contract_witness :
    (savesThenReports (handle_add [] ["Ann", "0123456789"]) ∨
      reportsErrorOnly (handle_add [] ["Ann", "0123456789"])) ∧
    noSave (handle_phone [] ["Ann"]).2 ∧
    (∃ effs, handle_birthdays bookC2 ⟨2024, 1, 1⟩ = .ok effs ∧ noSave effs) := by
  refine ⟨C8_persist_contract.1 [] ["Ann", "0123456789"],
    (C8_persist_contract.2.2.2.2.2.1 [] ["Ann"]).2, ⟨?_, ?_, ?_⟩⟩
  · exact [.showBirthdays [("Alice", ⟨2024, 1, 3⟩)]]
  · decide
  · exact C8_persist_contract.2.2.2.2.2.2.2.2.1 bookC2 ⟨2024, 1, 1⟩
      [.showBirthdays [("Alice", ⟨2024, 1, 3⟩)]] (by decide)

/-! ### C10 -/

/-- C10: when the name is absent and the phone invalid, `handle_add`
    first inserts a fresh empty record, then the phone validation
    fails; the caught error is reported, the empty record stays in the
    store, and no persist happens.  Confirmed. -/
theorem C10_add_inserts_before_validation (book : Book) (name phone : String)
    (rest : List String) (e : PyErr)
    (habs : find book name = none) (hbad : makePhone phone = .error e) :
    handle_add book (name :: phone :: rest) =
      (add_record book ⟨name, [], none⟩,
        [.error "Номер телефону має складатися рівно з 10 цифр."]) ∧
    find (add_record book ⟨name, [], none⟩) name = some ⟨name, [], none⟩ := by
  have hmsg : e = .valueError "Номер телефону має складатися рівно з 10 цифр." := by
    unfold makePhone at hbad
    by_cases hc : (pyIsdigit (pyStrip phone) && (pyStrip phone).length == 10) = true
    · rw [if_pos hc] at hbad
      cases hbad
    · rw [if_neg hc] at hbad
      cases hbad
      rfl
  constructor
  · simp only [handle_add, habs, Record.add_phone, hbad, hmsg, errText]
  · exact find_add_record book ⟨name, [], none⟩ name rfl

/-- Witness for C10 at a concrete empty store and invalid phone. -/
theorem C10_add_witness :
    handle_add [] ["Ann", "123"] =
      ([("ann", ⟨"Ann", [], none⟩)],
        [.error "Номер телефону має складатися рівно з 10 цифр."]) ∧
    find [("ann", ⟨"Ann", [], none⟩)] "Ann" = some ⟨"Ann", [], none⟩ := by
  have h := C10_add_inserts_before_validation [] "Ann" "123" []
    (.valueError "Номер телефону має складатися рівно з 10 цифр.") (by decide) (by decide)
  have hb : add_record ([] : Book) ⟨"Ann", [], none⟩ = [("ann", ⟨"Ann", [], none⟩)] := by decide
  rw [hb] at h
  exact h

/-! ### C1 -/

/-- When both projections of a birthday land on existing days, the
    loop body computes exactly the spec's greeting date. -/
theorem greetOf_ok (today b : PyDate)
    (h1 : b.day ≤ daysInMonth today.year b.month)
    (h2 : toOrdinal (⟨today.year, b.month, b.day⟩ : PyDate) < toOrdinal today →
      b.day ≤ daysInMonth (today.year + 1) b.month) :
    greetOf today b = .ok (specGreet today b) := by
  have hd1 : dateReplaceYear b today.year = .ok ⟨today.year, b.month, b.day⟩ := by
    unfold dateReplaceYear
    rw [if_pos h1]
  by_cases hlt : toOrdinal (⟨today.year, b.month, b.day⟩ : PyDate) < toOrdinal today
  · have hd2 : dateReplaceYear ⟨today.year, b.month, b.day⟩ (today.year + 1) =
        .ok ⟨today.year + 1, b.month, b.day⟩ := by
      unfold dateReplaceYear
      rw [if_pos (h2 hlt)]
    simp only [greetOf, hd1, hd2, if_pos hlt, specGreet]
  · simp only [greetOf, hd1, if_neg hlt, specGreet]

theorem specEntry_eq_some (today : PyDate) (days : Int) (r : Record) (b : PyDate)
    (hb : r.birthday = some b) :
    specEntry today days r =
      (if inWindow today days (specGreet today b) = true
        then some (r.name, specGreet today b) else none) := by
  unfold specEntry
  rw [hb]

theorem specEntry_eq_none (today : PyDate) (days : Int) (r : Record)
    (hb : r.birthday = none) :
    specEntry today days r = none := by
  unfold specEntry
  rw [hb]

/-- Under projectability of every birthday, the record loop returns
    exactly the spec-side `filterMap`, in iteration order. -/
theorem gubEntries_ok (today : PyDate) (days : Int) :
    ∀ recs : List Record, (∀ r ∈ recs, projectable today r = true) →
      gubEntries today days recs = .ok (recs.filterMap (specEntry today days)) := by
  intro recs
  induction recs with
  | nil => intro _; rfl
  | cons r rs ih =>
    intro h
    have hrs := ih (fun x hx => h x (List.mem_cons_of_mem r hx))
    have hr := h r (List.mem_cons_self r rs)
    cases hb : r.birthday with
    | none =>
      simp only [gubEntries, hb, hrs, List.filterMap_cons, specEntry_eq_none today days r hb]
    | some b =>
      have hrb : (decide (b.day ≤ daysInMonth today.year b.month) &&
          (!decide (toOrdinal (⟨today.year, b.month, b.day⟩ : PyDate) < toOrdinal today) ||
            decide (b.day ≤ daysInMonth (today.year + 1) b.month))) = true := by
        have hp := hr
        unfold projectable at hp
        rw [hb] at hp
        exact hp
      rw [Bool.and_eq_true] at hrb
      have h1 : b.day ≤ daysInMonth today.year b.month := by
        simpa using hrb.1
      have h2 : toOrdinal (⟨today.year, b.month, b.day⟩ : PyDate) < toOrdinal today →
          b.day ≤ daysInMonth (today.year + 1) b.month := by
        intro hlt
        have hor := hrb.2
        rw [Bool.or_eq_true] at hor
        rcases hor with hc | hc
        · rw [Bool.not_eq_true', decide_eq_false_iff_not] at hc
          exact absurd hlt hc
        · simpa using hc
      have hg : greetOf today b = .ok (specGreet today b) := greetOf_ok today b h1 h2
      by_cases hw : inWindow today days (specGreet today b) = true
      · rw [List.filterMap_cons, specEntry_eq_some today days r b hb, if_pos hw]
        simp only [gubEntries, hb, hg, hrs, if_pos hw]
      · rw [List.filterMap_cons, specEntry_eq_some today days r b hb, if_neg hw]
        simp only [gubEntries, hb, hg, hrs, if_neg hw]

/-- C1 counterexample: the claim as stated fails — on a store whose
    only record has birthday 29.02.2024, with `today` = 01.03.2023,
    `date.replace(year=2023)` raises, so the query returns no entry
    list at all instead of the described window selection. -/
theorem C1_upcoming_window_cex :
    get_upcoming_birthdays bookLeap 7 ⟨2023, 3, 1⟩ =
      .error (.valueError "day is out of range for month") := by
  decide

/-- C1 amended: provided every stored birthday projects onto existing
    days of the current and next year (only Feb 29 can fail this), the
    query returns, without touching the store, exactly the records
    whose projected, weekend-shifted greeting date `g` satisfies
    `today ≤ g ≤ today + (windowDays - 1)`, each paired with `g`, in
    ascending order of `g`. -/
theorem C1_upcoming_window_amended (book : Book) (days : Int) (today : PyDate)
    (_hdays : 1 ≤ days)
    (hproj : ∀ r ∈ book.map Prod.snd, projectable today r = true) :
    ∃ l, get_upcoming_birthdays book days today = .ok l ∧
      (∀ e, e ∈ l ↔ ∃ r ∈ book.map Prod.snd, ∃ b, r.birthday = some b ∧
        e = (r.name, specGreet today b) ∧
        toOrdinal today ≤ toOrdinal (specGreet today b) ∧
        (toOrdinal (specGreet today b) : Int) ≤ (toOrdinal today : Int) + (days - 1)) ∧
      l.Sorted leGreet := by
  refine ⟨List.insertionSort leGreet
    ((book.map Prod.snd).filterMap (specEntry today days)), ?_, ?_, ?_⟩
  · unfold get_upcoming_birthdays
    rw [gubEntries_ok today days (book.map Prod.snd) hproj]
    rfl
  · intro e
    rw [List.mem_insertionSort, List.mem_filterMap]
    constructor
    · rintro ⟨r, hr, hE⟩
      cases hb : r.birthday with
      | none =>
        rw [specEntry_eq_none today days r hb] at hE
        cases hE
      | some b =>
        rw [specEntry_eq_some today days r b hb] at hE
        by_cases hw : inWindow today days (specGreet today b) = true
        · rw [if_pos hw] at hE
          cases hE
          unfold inWindow at hw
          rw [Bool.and_eq_true, decide_eq_true_eq, decide_eq_true_eq] at hw
          exact ⟨r, hr, b, hb, rfl, hw.1, hw.2⟩
        · rw [if_neg hw] at hE
          cases hE
    · rintro ⟨r, hr, b, hb, he, hle1, hle2⟩
      refine ⟨r, hr, ?_⟩
      have hw : inWindow today days (specGreet today b) = true := by
        unfold inWindow
        rw [Bool.and_eq_true, decide_eq_true_eq, decide_eq_true_eq]
        exact ⟨hle1, hle2⟩
      rw [specEntry_eq_some today days r b hb, if_pos hw, he]
  · exact List.sorted_insertionSort leGreet _

/-- Witness for C1 at the concrete example store. -/
theorem C1_upcoming_window_witness :
    ∃ l, get_upcoming_birthdays bookC2 7 ⟨2024, 1, 1⟩ = .ok l ∧ l.Sorted leGreet := by
  obtain ⟨l, h1, _, h3⟩ :=
    C1_upcoming_window_amended bookC2 7 ⟨2024, 1, 1⟩ (by decide) (by decide)
  exact ⟨l, h1, h3⟩

/-! ### C2 -/

/-- C2 counterexample: with `today` = 01.01.2024 and the 7-day window
    (which ends 07.01.2024), the result holds ONLY the 03.01 record;
    the 06.01.1990 record is not reported at all, because its shifted
    greeting date 08.01.2024 falls outside the window — contradicting
    the claim that it is reported with that date. -/
theorem C2_example_cex :
    get_upcoming_birthdays bookC2 7 ⟨2024, 1, 1⟩ = .ok [("Alice", ⟨2024, 1, 3⟩)] := by
  decide

/-- C2 amended: the 03.01.1990 record appears in the 7-day window with
    unshifted greeting date 03.01.2024 (a Wednesday); the 06.01.1990
    record's projection 06.01.2024 is a Saturday and shifts to Monday
    08.01.2024, which lies outside the 7-day window, so that record is
    excluded there and is reported with greeting date 08.01.2024 once
    the window reaches 8 days. -/
theorem C2_example_amended :
    weekday ⟨2024, 1, 3⟩ = 2 ∧
    get_upcoming_birthdays bookC2 7 ⟨2024, 1, 1⟩ = .ok [("Alice", ⟨2024, 1, 3⟩)] ∧
    weekday ⟨2024, 1, 6⟩ = 5 ∧
    shift_if_weekend ⟨2024, 1, 6⟩ = ⟨2024, 1, 8⟩ ∧
    weekday ⟨2024, 1, 8⟩ = 0 ∧
    get_upcoming_birthdays bookC2 8 ⟨2024, 1, 1⟩ =
      .ok [("Alice", ⟨2024, 1, 3⟩), ("Bob", ⟨2024, 1, 8⟩)] := by
  decide

/-! ### C3 -/

/-- C3: the claim is the spec's intent, but the code violates it —
    `handle_birthdays` lacks the `@input_error` decorator, so the
    `ValueError` that `date.replace` raises for a stored Feb 29
    birthday in a common year escapes the command execution and aborts
    the loop, instead of being converted to one error report: running
    `birthdays` on a store holding birthday 29.02.2024 with `today` =
    01.03.2023 crashes. -/
theorem C3_uncaught_birthdays :
    dispatch ⟨2023, 3, 1⟩ bookLeap "birthdays" [] =
      .crash bookLeap (.valueError "day is out of range for month") := by
  decide

end AB





